import Mathlib

/-!
Verification of the workout-timer session state machine (`src/App.tsx`).

The source stores timestamps as `number | null` (values produced by
`Date.now()`, which is always a positive number), so the JS truthiness
guards such as `if (!workout.startTime)` are null-presence checks on the
reachable value domain.  We embed timestamps as `Option Int` and those
guards as presence tests.  All operations take the current time `t`
explicitly (the source reads it from the `now()` time source).
-/

namespace WorkoutTimer

/-- The session phase, `type Phase = "READY" | "IN_SET" | "IN_REST"`. -/
inductive Phase where
  | READY
  | IN_SET
  | IN_REST
deriving DecidableEq, Repr

/-- `type SetLog`: one lift/rest interval pair, each endpoint optional. -/
structure SetLog where
  setStart : Option Int
  setEnd : Option Int
  restStart : Option Int
  restEnd : Option Int
deriving DecidableEq, Repr

/-- `type Exercise`: a named unit of work with its logged sets. -/
structure Exercise where
  id : String
  name : String
  sets : List SetLog
deriving DecidableEq, Repr

/-- The `active` field of a workout: the currently open timing interval. -/
structure Active where
  setStart : Option Int
  restStart : Option Int
deriving DecidableEq, Repr

/-- `type Workout`: the aggregate session state. -/
structure Workout where
  startTime : Option Int
  exerciseStartTime : Option Int
  endTime : Option Int
  phase : Phase
  currentExerciseIndex : Nat
  exercises : List Exercise
  active : Active
deriving DecidableEq, Repr

/-- `newWorkout()`: the initial state with one empty exercise. -/
def newWorkout : Workout :=
  { startTime := none
    exerciseStartTime := none
    endTime := none
    phase := Phase.READY
    currentExerciseIndex := 0
    exercises := [{ id := "ex-1", name := "Exercise 1", sets := [] }]
    active := { setStart := none, restStart := none } }

/-- Placeholder exercise used to totalise `workout.exercises[i]`; reachable
states always index in bounds, so it is never observed there. -/
def defaultExercise : Exercise :=
  { id := "", name := "", sets := [] }

/-- `workout.exercises[workout.currentExerciseIndex]`. -/
def currentEx (w : Workout) : Exercise :=
  w.exercises.getD w.currentExerciseIndex defaultExercise

/-- `exercises[workout.currentExerciseIndex] = e` on a copy of the list. -/
def setCurrentEx (w : Workout) (e : Exercise) : List Exercise :=
  w.exercises.set w.currentExerciseIndex e

/-- `String(n).padStart(2, "0")` for the second counter (always `< 60`). -/
def padTwo (n : Int) : String :=
  if n < 10 then "0" ++ toString n else toString n

/-- `msToClock(ms)`: minutes (unbounded) and zero-padded seconds. -/
def msToClock (ms : Int) : String :=
  toString (max 0 (Int.fdiv ms 1000) / 60) ++ ":" ++
    padTwo (max 0 (Int.fdiv ms 1000) % 60)

/-- The lifting contribution of one record in `calcTotals`. -/
def setWorkMs (s : SetLog) : Int :=
  match s.setStart, s.setEnd with
  | some a, some b => b - a
  | _, _ => 0

/-- The resting contribution of one record in `calcTotals`. -/
def setRestMs (s : SetLog) : Int :=
  match s.restStart, s.restEnd with
  | some a, some b => b - a
  | _, _ => 0

/-- Lifting milliseconds of one exercise (inner loop of `calcTotals`). -/
def exWorkMs (e : Exercise) : Int :=
  (e.sets.map setWorkMs).sum

/-- Resting milliseconds of one exercise (inner loop of `calcTotals`). -/
def exRestMs (e : Exercise) : Int :=
  (e.sets.map setRestMs).sum

/-- Result record of `calcTotals`. -/
structure Totals where
  workMs : Int
  restMs : Int
  gymMs : Int
deriving DecidableEq, Repr

/-- `calcTotals(workout)`; `tNow` is the `now()` read used when
`endTime` is still absent (`workout.endTime ?? now()`). -/
def calcTotals (tNow : Int) (w : Workout) : Totals :=
  { workMs := (w.exercises.map exWorkMs).sum
    restMs := (w.exercises.map exRestMs).sum
    gymMs :=
      match w.startTime with
      | some s => w.endTime.getD tNow - s
      | none => 0 }

/-- Replace the last element of a list, `sets[sets.length - 1] = f last`. -/
def updateLast (f : SetLog → SetLog) : List SetLog → List SetLog
  | [] => []
  | [x] => [f x]
  | a :: b :: rest => a :: updateLast f (b :: rest)

/-- `startWorkout()`. -/
def startWorkout (t : Int) (w : Workout) : Workout :=
  if w.startTime ≠ none then w
  else
    { w with
        startTime := some t
        exerciseStartTime := none
        endTime := none
        phase := Phase.READY
        active := { setStart := none, restStart := none } }

/-- `startSet()`. -/
def startSet (t : Int) (w : Workout) : Workout :=
  if w.startTime = none ∨ w.endTime ≠ none ∨ w.phase ≠ Phase.READY then w
  else
    { w with
        phase := Phase.IN_SET
        exerciseStartTime :=
          if w.exerciseStartTime = none then some t else w.exerciseStartTime
        active := { setStart := some t, restStart := none } }

/-- `endSetStartRest()`. -/
def endSetStartRest (t : Int) (w : Workout) : Workout :=
  if w.startTime = none ∨ w.endTime ≠ none ∨ w.phase ≠ Phase.IN_SET then w
  else
    { w with
        exercises :=
          setCurrentEx w
            { currentEx w with
                sets := (currentEx w).sets ++
                  [{ setStart := w.active.setStart
                     setEnd := some t
                     restStart := some t
                     restEnd := none }] }
        phase := Phase.IN_REST
        active := { setStart := none, restStart := some t } }

/-- `endRestStartSet()`. -/
def endRestStartSet (t : Int) (w : Workout) : Workout :=
  if w.startTime = none ∨ w.endTime ≠ none ∨ w.phase ≠ Phase.IN_REST then w
  else if (currentEx w).sets = [] then w
  else
    { w with
        exercises :=
          setCurrentEx w
            { currentEx w with
                sets := updateLast (fun s => { s with restEnd := some t })
                  (currentEx w).sets }
        phase := Phase.IN_SET
        active := { setStart := some t, restStart := none } }

/-- The force-close step of `nextExercise()` (lines 330-360). -/
def forceCloseNext (t : Int) (w : Workout) : Workout :=
  if w.phase = Phase.IN_SET then
    { w with
        exercises :=
          setCurrentEx w
            { currentEx w with
                sets := (currentEx w).sets ++
                  [{ setStart := some (w.active.setStart.getD t)
                     setEnd := some t
                     restStart := none
                     restEnd := none }] }
        active := { setStart := none, restStart := none }
        phase := Phase.READY }
  else if w.phase = Phase.IN_REST then
    { w with
        exercises :=
          if (currentEx w).sets = [] then w.exercises
          else
            setCurrentEx w
              { currentEx w with
                  sets := updateLast (fun s => { s with restEnd := some (s.restEnd.getD t) })
                    (currentEx w).sets }
        active := { setStart := none, restStart := none }
        phase := Phase.READY }
  else w

/-- `nextExercise()`. -/
def nextExercise (t : Int) (w : Workout) : Workout :=
  if w.startTime = none ∨ w.endTime ≠ none then w
  else
    { forceCloseNext t w with
        exercises := (forceCloseNext t w).exercises ++
          [{ id := "ex-" ++ toString ((forceCloseNext t w).exercises.length + 1)
             name := "Exercise " ++ toString ((forceCloseNext t w).exercises.length + 1)
             sets := [] }]
        currentExerciseIndex := (forceCloseNext t w).exercises.length + 1 - 1
        exerciseStartTime := none
        phase := Phase.READY
        active := { setStart := none, restStart := none } }

/-- The force-close step of `finishWorkout()` (lines 384-413). -/
def forceCloseFinish (t : Int) (w : Workout) : Workout :=
  if w.phase = Phase.IN_SET then
    { w with
        exercises :=
          setCurrentEx w
            { currentEx w with
                sets := (currentEx w).sets ++
                  [{ setStart := some (w.active.setStart.getD t)
                     setEnd := some t
                     restStart := some t
                     restEnd := some t }] } }
  else if w.phase = Phase.IN_REST then
    { w with
        exercises :=
          match (currentEx w).sets.getLast? with
          | some last =>
            if last.restStart ≠ none ∧ last.restEnd = none then
              setCurrentEx w
                { currentEx w with
                    sets := updateLast (fun s => { s with restEnd := some t })
                      (currentEx w).sets }
            else w.exercises
          | none => w.exercises }
  else w

/-- `finishWorkout()`. -/
def finishWorkout (t : Int) (w : Workout) : Workout :=
  if w.startTime = none ∨ w.endTime ≠ none then w
  else
    { forceCloseFinish t w with
        active := { setStart := none, restStart := none }
        phase := Phase.READY
        endTime := some t }

/-- `resetAll()` (the part that replaces the state). -/
def resetAll (_w : Workout) : Workout :=
  newWorkout

/-- The seven operations exposed by the state machine. -/
inductive Op where
  | opStart
  | opStartSet
  | opEndSetStartRest
  | opEndRestStartSet
  | opNextExercise
  | opFinish
  | opReset
deriving DecidableEq, Repr

/-- Apply one operation at time `t`. -/
def applyOp : Op → Int → Workout → Workout
  | Op.opStart, t, w => startWorkout t w
  | Op.opStartSet, t, w => startSet t w
  | Op.opEndSetStartRest, t, w => endSetStartRest t w
  | Op.opEndRestStartSet, t, w => endRestStartSet t w
  | Op.opNextExercise, t, w => nextExercise t w
  | Op.opFinish, t, w => finishWorkout t w
  | Op.opReset, _, w => resetAll w

/-- States reachable from the initial state by any operation sequence,
with arbitrary timestamps. -/
inductive Reach : Workout → Prop where
  | init : Reach newWorkout
  | step (o : Op) (t : Int) {w : Workout} (h : Reach w) : Reach (applyOp o t w)

/-- States reachable when the time source is monotonically non-decreasing;
`MonoReach t w` says `w` is reachable and every timestamp handed out so
far was `≤ t`. -/
inductive MonoReach : Int → Workout → Prop where
  | init (t : Int) : MonoReach t newWorkout
  | step (o : Op) {t t' : Int} {w : Workout} (h : MonoReach t w) (hle : t ≤ t') :
      MonoReach t' (applyOp o t' w)

/-- The active exercise index always points at the last exercise. -/
def IndexInv (w : Workout) : Prop :=
  w.currentExerciseIndex + 1 = w.exercises.length

/-- Coherence of `phase` with the `active` interval record. -/
def PhaseActiveInv (w : Workout) : Prop :=
  (w.phase = Phase.READY → w.active.setStart = none ∧ w.active.restStart = none) ∧
  (w.phase = Phase.IN_SET → (∃ a, w.active.setStart = some a) ∧ w.active.restStart = none) ∧
  (w.phase = Phase.IN_REST → w.active.setStart = none ∧ ∃ r, w.active.restStart = some r)

/-- The time-independent structural invariant. -/
def Inv0 (w : Workout) : Prop :=
  IndexInv w ∧ PhaseActiveInv w

/-- Total closed lifting + resting milliseconds recorded in the log. -/
def sumClosed (w : Workout) : Int :=
  (w.exercises.map exWorkMs).sum + (w.exercises.map exRestMs).sum

/-- The timing invariant maintained while the driver's clock has not
passed `t`: closed durations fit between `startTime` and the open
interval's start (or the clock, or `endTime`). -/
def TimeInv (t : Int) (w : Workout) : Prop :=
  (w.startTime = none → w = newWorkout) ∧
  (∀ s e, w.startTime = some s → w.endTime = some e → sumClosed w ≤ e - s) ∧
  (∀ s, w.startTime = some s → w.endTime = none → w.phase = Phase.READY →
    sumClosed w ≤ t - s) ∧
  (∀ s, w.startTime = some s → w.endTime = none → w.phase = Phase.IN_SET →
    ∃ a, w.active.setStart = some a ∧ a ≤ t ∧ sumClosed w ≤ a - s) ∧
  (∀ s, w.startTime = some s → w.endTime = none → w.phase = Phase.IN_REST →
    ∃ r, w.active.restStart = some r ∧ r ≤ t ∧ sumClosed w ≤ r - s ∧
      ∃ l last, (currentEx w).sets = l ++ [last] ∧
        last.restStart = some r ∧ last.restEnd = none)

theorem mapSum_set (f : Exercise → Int) :
    ∀ (l : List Exercise) (i : Nat) (e : Exercise), i < l.length →
      ((l.set i e).map f).sum = (l.map f).sum + f e - f (l.getD i defaultExercise) := by
  intro l
  induction l with
  | nil => intro i e h; simp at h
  | cons a l ih =>
    intro i e h
    cases i with
    | zero => simp [List.set]; ring
    | succ n =>
      have hn : n < l.length := by simpa using h
      simp only [List.set, List.map_cons, List.sum_cons, List.getD_cons_succ]
      rw [ih n e hn]
      ring

theorem getD_set_self :
    ∀ (l : List Exercise) (i : Nat) (e d : Exercise), i < l.length →
      (l.set i e).getD i d = e := by
  intro l
  induction l with
  | nil => intro i e d h; simp at h
  | cons a l ih =>
    intro i e d h
    cases i with
    | zero => rfl
    | succ n =>
      have hn : n < l.length := by simpa using h
      simpa [List.set] using ih n e d hn

theorem getD_append_len (l : List Exercise) (x d : Exercise) :
    (l ++ [x]).getD l.length d = x := by
  induction l with
  | nil => rfl
  | cons a l ih =>
    simp only [List.length_cons, List.cons_append, List.getD_cons_succ]
    exact ih

theorem updateLast_append (f : SetLog → SetLog) :
    ∀ (l : List SetLog) (x : SetLog), updateLast f (l ++ [x]) = l ++ [f x] := by
  intro l
  induction l with
  | nil => intro x; rfl
  | cons a l ih =>
    intro x
    cases l with
    | nil => rfl
    | cons b l2 =>
      show a :: updateLast f ((b :: l2) ++ [x]) = _
      rw [ih]
      rfl

theorem forceCloseNext_startTime (t : Int) (w : Workout) :
    (forceCloseNext t w).startTime = w.startTime := by
  unfold forceCloseNext
  cases hph : w.phase <;> simp

theorem forceCloseNext_endTime (t : Int) (w : Workout) :
    (forceCloseNext t w).endTime = w.endTime := by
  unfold forceCloseNext
  cases hph : w.phase <;> simp

theorem forceCloseNext_index (t : Int) (w : Workout) :
    (forceCloseNext t w).currentExerciseIndex = w.currentExerciseIndex := by
  unfold forceCloseNext
  cases hph : w.phase <;> simp

theorem forceCloseNext_length (t : Int) (w : Workout) :
    (forceCloseNext t w).exercises.length = w.exercises.length := by
  unfold forceCloseNext
  cases hph : w.phase with
  | READY => simp
  | IN_SET => simp [setCurrentEx]
  | IN_REST =>
    simp only [reduceCtorEq, if_false, if_true, reduceIte]
    split <;> simp [setCurrentEx]

theorem forceCloseFinish_startTime (t : Int) (w : Workout) :
    (forceCloseFinish t w).startTime = w.startTime := by
  unfold forceCloseFinish
  cases hph : w.phase <;> simp

theorem forceCloseFinish_index (t : Int) (w : Workout) :
    (forceCloseFinish t w).currentExerciseIndex = w.currentExerciseIndex := by
  unfold forceCloseFinish
  cases hph : w.phase <;> simp

theorem forceCloseFinish_length (t : Int) (w : Workout) :
    (forceCloseFinish t w).exercises.length = w.exercises.length := by
  unfold forceCloseFinish
  cases hph : w.phase with
  | READY => simp
  | IN_SET => simp [setCurrentEx]
  | IN_REST =>
    simp only [reduceCtorEq, if_false, if_true, reduceIte]
    cases hgl : (currentEx w).sets.getLast? with
    | none => simp
    | some last =>
      simp only []
      split <;> simp [setCurrentEx]

theorem phaseActiveInv_of_ready {w : Workout} (hp : w.phase = Phase.READY)
    (h2 : w.active.setStart = none) (h3 : w.active.restStart = none) :
    PhaseActiveInv w := by
  unfold PhaseActiveInv
  refine ⟨fun _ => ⟨h2, h3⟩, fun h => ?_, fun h => ?_⟩ <;> rw [hp] at h <;> simp at h

theorem phaseActiveInv_of_inset {w : Workout} (hp : w.phase = Phase.IN_SET)
    (h2 : ∃ a, w.active.setStart = some a) (h3 : w.active.restStart = none) :
    PhaseActiveInv w := by
  unfold PhaseActiveInv
  refine ⟨fun h => ?_, fun _ => ⟨h2, h3⟩, fun h => ?_⟩ <;> rw [hp] at h <;> simp at h

theorem phaseActiveInv_of_inrest {w : Workout} (hp : w.phase = Phase.IN_REST)
    (h2 : w.active.setStart = none) (h3 : ∃ r, w.active.restStart = some r) :
    PhaseActiveInv w := by
  unfold PhaseActiveInv
  refine ⟨fun h => ?_, fun h => ?_, fun _ => ⟨h2, h3⟩⟩ <;> rw [hp] at h <;> simp at h

theorem inv0_newWorkout : Inv0 newWorkout :=
  ⟨rfl, phaseActiveInv_of_ready rfl rfl rfl⟩

theorem inv0_applyOp (o : Op) (t : Int) (w : Workout) (h : Inv0 w) :
    Inv0 (applyOp o t w) := by
  obtain ⟨hi, hpa⟩ := h
  cases o with
  | opStart =>
    show Inv0 (startWorkout t w)
    unfold startWorkout
    split
    · exact ⟨hi, hpa⟩
    · exact ⟨hi, phaseActiveInv_of_ready rfl rfl rfl⟩
  | opStartSet =>
    show Inv0 (startSet t w)
    unfold startSet
    split
    · exact ⟨hi, hpa⟩
    · exact ⟨hi, phaseActiveInv_of_inset rfl ⟨t, rfl⟩ rfl⟩
  | opEndSetStartRest =>
    show Inv0 (endSetStartRest t w)
    unfold endSetStartRest
    split
    · exact ⟨hi, hpa⟩
    · refine ⟨?_, phaseActiveInv_of_inrest rfl rfl ⟨t, rfl⟩⟩
      show w.currentExerciseIndex + 1 = (setCurrentEx w _).length
      simpa [setCurrentEx] using hi
  | opEndRestStartSet =>
    show Inv0 (endRestStartSet t w)
    unfold endRestStartSet
    split
    · exact ⟨hi, hpa⟩
    · split
      · exact ⟨hi, hpa⟩
      · refine ⟨?_, phaseActiveInv_of_inset rfl ⟨t, rfl⟩ rfl⟩
        show w.currentExerciseIndex + 1 = (setCurrentEx w _).length
        simpa [setCurrentEx] using hi
  | opNextExercise =>
    show Inv0 (nextExercise t w)
    unfold nextExercise
    split
    · exact ⟨hi, hpa⟩
    · refine ⟨?_, phaseActiveInv_of_ready rfl rfl rfl⟩
      unfold IndexInv
      simp
  | opFinish =>
    show Inv0 (finishWorkout t w)
    unfold finishWorkout
    split
    · exact ⟨hi, hpa⟩
    · refine ⟨?_, phaseActiveInv_of_ready rfl rfl rfl⟩
      unfold IndexInv
      show (forceCloseFinish t w).currentExerciseIndex + 1 =
        (forceCloseFinish t w).exercises.length
      rw [forceCloseFinish_index, forceCloseFinish_length]
      exact hi
  | opReset =>
    exact inv0_newWorkout

theorem reach_inv0 {w : Workout} (h : Reach w) : Inv0 w := by
  induction h with
  | init => exact inv0_newWorkout
  | step o t _ ih => exact inv0_applyOp o t _ ih

theorem timeInv_newWorkout (t : Int) : TimeInv t newWorkout := by
  unfold TimeInv
  refine ⟨fun _ => rfl, fun s e hs _ => ?_, fun s hs _ _ => ?_,
    fun s hs _ _ => ?_, fun s hs _ _ => ?_⟩ <;> simp [newWorkout] at hs

theorem timeInv_mono {t t' : Int} {w : Workout} (h : TimeInv t w) (hle : t ≤ t') :
    TimeInv t' w := by
  unfold TimeInv at h ⊢
  obtain ⟨h1, h2, h3, h4, h5⟩ := h
  refine ⟨h1, h2, ?_, ?_, ?_⟩
  · intro s hs he hp
    have := h3 s hs he hp
    omega
  · intro s hs he hp
    obtain ⟨a, ha, hat, hsum⟩ := h4 s hs he hp
    exact ⟨a, ha, by omega, hsum⟩
  · intro s hs he hp
    obtain ⟨r, hr, hrt, hsum, rest⟩ := h5 s hs he hp
    exact ⟨r, hr, by omega, hsum, rest⟩

theorem sumClosed_setCurrentEx {w : Workout}
    (hidx : w.currentExerciseIndex < w.exercises.length) (e : Exercise) :
    ((setCurrentEx w e).map exWorkMs).sum + ((setCurrentEx w e).map exRestMs).sum
      = sumClosed w + (exWorkMs e + exRestMs e)
        - (exWorkMs (currentEx w) + exRestMs (currentEx w)) := by
  unfold setCurrentEx sumClosed currentEx
  rw [mapSum_set exWorkMs _ _ _ hidx, mapSum_set exRestMs _ _ _ hidx]
  ring

theorem setWorkMs_restEnd (s : SetLog) (x : Option Int) :
    setWorkMs { s with restEnd := x } = setWorkMs s := rfl

theorem setRestMs_close (s : SetLog) (r t : Int) (h : s.restStart = some r) :
    setRestMs { s with restEnd := some t } = t - r := by
  unfold setRestMs
  simp [h]

theorem setRestMs_of_restEnd_none (s : SetLog) (h : s.restEnd = none) :
    setRestMs s = 0 := by
  unfold setRestMs
  cases hrs : s.restStart <;> simp [h, hrs]

theorem sumClosed_mk (st est et : Option Int) (ph : Phase) (ci : Nat)
    (ex : List Exercise) (ac : Active) :
    sumClosed ⟨st, est, et, ph, ci, ex, ac⟩
      = (ex.map exWorkMs).sum + (ex.map exRestMs).sum := rfl

theorem exWorkMs_append (ex : Exercise) (r : SetLog) :
    exWorkMs { ex with sets := ex.sets ++ [r] } = exWorkMs ex + setWorkMs r := by
  unfold exWorkMs
  simp

theorem exRestMs_append (ex : Exercise) (r : SetLog) :
    exRestMs { ex with sets := ex.sets ++ [r] } = exRestMs ex + setRestMs r := by
  unfold exRestMs
  simp

theorem timeInv_startWorkout {t t' : Int} {w : Workout} (h : TimeInv t w) (hle : t ≤ t') :
    TimeInv t' (startWorkout t' w) := by
  have hmono := timeInv_mono h hle
  unfold TimeInv at h
  obtain ⟨h1, h2, h3, h4, h5⟩ := h
  unfold startWorkout
  split
  · exact hmono
  · next hg =>
    have hn : w.startTime = none := not_not.mp hg
    have hw : w = newWorkout := h1 hn
    subst hw
    unfold TimeInv
    refine ⟨fun hc => ?_, fun s e hs he => ?_, fun s hs he hp => ?_,
      fun s hs he hp => ?_, fun s hs he hp => ?_⟩
    · exact absurd hc (by simp)
    · exact absurd he (by simp)
    · have hst : some t' = some s := hs
      have hse : s = t' := (Option.some.inj hst).symm
      subst hse
      simp [sumClosed, newWorkout, exWorkMs, exRestMs]
    · have hp' : Phase.READY = Phase.IN_SET := hp
      simp at hp'
    · have hp' : Phase.READY = Phase.IN_REST := hp
      simp at hp'

theorem timeInv_startSet {t t' : Int} {w : Workout} (h : TimeInv t w) (hle : t ≤ t') :
    TimeInv t' (startSet t' w) := by
  have hmono := timeInv_mono h hle
  unfold TimeInv at h
  obtain ⟨h1, h2, h3, h4, h5⟩ := h
  unfold startSet
  split
  · exact hmono
  · next hg =>
    push_neg at hg
    obtain ⟨hs0, he0, hp0⟩ := hg
    obtain ⟨s, hs⟩ := Option.ne_none_iff_exists'.mp hs0
    have hsum : sumClosed w ≤ t - s := h3 s hs he0 hp0
    unfold TimeInv
    refine ⟨fun hc => ?_, fun s2 e hs2 he2 => ?_, fun s2 hs2 he2 hp2 => ?_,
      fun s2 hs2 he2 hp2 => ?_, fun s2 hs2 he2 hp2 => ?_⟩
    · have hc' : w.startTime = none := hc
      rw [hs] at hc'
      simp at hc'
    · have he2' : w.endTime = some e := he2
      rw [he0] at he2'
      simp at he2'
    · have hp2' : Phase.IN_SET = Phase.READY := hp2
      simp at hp2'
    · have hs2' : w.startTime = some s2 := hs2
      rw [hs] at hs2'
      have hs2e : s2 = s := (Option.some.inj hs2').symm
      refine ⟨t', rfl, le_refl t', ?_⟩
      show sumClosed w ≤ t' - s2
      omega
    · have hp2' : Phase.IN_SET = Phase.IN_REST := hp2
      simp at hp2'

theorem timeInv_endSetStartRest {t t' : Int} {w : Workout} (h0 : Inv0 w)
    (h : TimeInv t w) (hle : t ≤ t') : TimeInv t' (endSetStartRest t' w) := by
  have hmono := timeInv_mono h hle
  have hidx : w.currentExerciseIndex < w.exercises.length := by
    have hiv := h0.1
    unfold IndexInv at hiv
    omega
  unfold TimeInv at h
  obtain ⟨h1, h2, h3, h4, h5⟩ := h
  unfold endSetStartRest
  split
  · exact hmono
  · next hg =>
    push_neg at hg
    obtain ⟨hs0, he0, hp0⟩ := hg
    obtain ⟨s, hs⟩ := Option.ne_none_iff_exists'.mp hs0
    obtain ⟨a, ha, hat, hsum⟩ := h4 s hs he0 hp0
    unfold TimeInv
    refine ⟨fun hc => ?_, fun s2 e hs2 he2 => ?_, fun s2 hs2 he2 hp2 => ?_,
      fun s2 hs2 he2 hp2 => ?_, fun s2 hs2 he2 hp2 => ?_⟩
    · have hc' : w.startTime = none := hc
      rw [hs] at hc'
      simp at hc'
    · have he2' : w.endTime = some e := he2
      rw [he0] at he2'
      simp at he2'
    · have hp2' : Phase.IN_REST = Phase.READY := hp2
      simp at hp2'
    · have hp2' : Phase.IN_REST = Phase.IN_SET := hp2
      simp at hp2'
    · have hs2' : w.startTime = some s2 := hs2
      rw [hs] at hs2'
      have hs2e : s2 = s := (Option.some.inj hs2').symm
      have hcur :
          currentEx
            { w with
                exercises :=
                  setCurrentEx w
                    { currentEx w with
                        sets := (currentEx w).sets ++
                          [{ setStart := w.active.setStart
                             setEnd := some t'
                             restStart := some t'
                             restEnd := none }] }
                phase := Phase.IN_REST
                active := { setStart := none, restStart := some t' } }
            = { currentEx w with
                  sets := (currentEx w).sets ++
                    [{ setStart := w.active.setStart
                       setEnd := some t'
                       restStart := some t'
                       restEnd := none }] } := by
        show (setCurrentEx w _).getD w.currentExerciseIndex defaultExercise = _
        exact getD_set_self _ _ _ _ hidx
      refine ⟨t', rfl, le_refl t', ?_, (currentEx w).sets,
        { setStart := w.active.setStart, setEnd := some t',
          restStart := some t', restEnd := none }, ?_, rfl, rfl⟩
      · rw [sumClosed_mk, sumClosed_setCurrentEx hidx, exWorkMs_append, exRestMs_append,
          setRestMs_of_restEnd_none _ rfl]
        have hwm : setWorkMs
            { setStart := w.active.setStart, setEnd := some t',
              restStart := some t', restEnd := none } = t' - a := by
          unfold setWorkMs
          rw [ha]
        rw [hwm]
        omega
      · rw [hcur]

theorem exWorkMs_nil (i n : String) : exWorkMs ⟨i, n, []⟩ = 0 := rfl

theorem exRestMs_nil (i n : String) : exRestMs ⟨i, n, []⟩ = 0 := rfl

theorem mapSum_append_one (f : Exercise → Int) (l : List Exercise) (e : Exercise) :
    ((l ++ [e]).map f).sum = (l.map f).sum + f e := by
  simp

theorem timeInv_endRestStartSet {t t' : Int} {w : Workout} (h0 : Inv0 w)
    (h : TimeInv t w) (hle : t ≤ t') : TimeInv t' (endRestStartSet t' w) := by
  have hmono := timeInv_mono h hle
  have hidx : w.currentExerciseIndex < w.exercises.length := by
    have hiv := h0.1
    unfold IndexInv at hiv
    omega
  unfold TimeInv at h
  obtain ⟨h1, h2, h3, h4, h5⟩ := h
  unfold endRestStartSet
  split
  · exact hmono
  · next hg =>
    split
    · exact hmono
    · next hne =>
      push_neg at hg
      obtain ⟨hs0, he0, hp0⟩ := hg
      obtain ⟨s, hs⟩ := Option.ne_none_iff_exists'.mp hs0
      obtain ⟨r, hr, hrt, hsum, l, last, hsets, hlrs, hlre⟩ := h5 s hs he0 hp0
      have hE : updateLast (fun s => { s with restEnd := some t' }) (currentEx w).sets
          = l ++ [{ last with restEnd := some t' }] := by
        rw [hsets, updateLast_append]
      have hwork :
          exWorkMs
            { currentEx w with
                sets := updateLast (fun s => { s with restEnd := some t' }) (currentEx w).sets }
            = exWorkMs (currentEx w) := by
        unfold exWorkMs
        rw [hE]
        conv_rhs => rw [hsets]
        simp [setWorkMs_restEnd]
      have hrest :
          exRestMs
            { currentEx w with
                sets := updateLast (fun s => { s with restEnd := some t' }) (currentEx w).sets }
            = exRestMs (currentEx w) + (t' - r) := by
        unfold exRestMs
        rw [hE]
        conv_rhs => rw [hsets]
        simp [setRestMs_close last r t' hlrs, setRestMs_of_restEnd_none last hlre]
      unfold TimeInv
      refine ⟨fun hc => ?_, fun s2 e hs2 he2 => ?_, fun s2 hs2 he2 hp2 => ?_,
        fun s2 hs2 he2 hp2 => ?_, fun s2 hs2 he2 hp2 => ?_⟩
      · have hc' : w.startTime = none := hc
        rw [hs] at hc'
        simp at hc'
      · have he2' : w.endTime = some e := he2
        rw [he0] at he2'
        simp at he2'
      · have hp2' : Phase.IN_SET = Phase.READY := hp2
        simp at hp2'
      · have hs2' : w.startTime = some s2 := hs2
        rw [hs] at hs2'
        have hs2e : s2 = s := (Option.some.inj hs2').symm
        refine ⟨t', rfl, le_refl t', ?_⟩
        rw [sumClosed_mk, sumClosed_setCurrentEx hidx, hwork, hrest]
        omega
      · have hp2' : Phase.IN_SET = Phase.IN_REST := hp2
        simp at hp2'

theorem timeInv_nextExercise {t t' : Int} {w : Workout} (h0 : Inv0 w)
    (h : TimeInv t w) (hle : t ≤ t') : TimeInv t' (nextExercise t' w) := by
  have hmono := timeInv_mono h hle
  have hidx : w.currentExerciseIndex < w.exercises.length := by
    have hiv := h0.1
    unfold IndexInv at hiv
    omega
  unfold TimeInv at h
  obtain ⟨h1, h2, h3, h4, h5⟩ := h
  unfold nextExercise
  split
  · exact hmono
  · next hg =>
    push_neg at hg
    obtain ⟨hs0, he0⟩ := hg
    obtain ⟨s, hs⟩ := Option.ne_none_iff_exists'.mp hs0
    have hFCsum : ((forceCloseNext t' w).exercises.map exWorkMs).sum
        + ((forceCloseNext t' w).exercises.map exRestMs).sum ≤ t' - s := by
      cases hph : w.phase with
      | READY =>
        have hr := h3 s hs he0 hph
        unfold forceCloseNext
        rw [hph]
        simp only [reduceCtorEq, reduceIte]
        unfold sumClosed at hr
        omega
      | IN_SET =>
        obtain ⟨a, ha, hat, hsum⟩ := h4 s hs he0 hph
        unfold forceCloseNext
        rw [hph, ha]
        simp only [reduceIte, Option.getD_some]
        rw [sumClosed_setCurrentEx hidx, exWorkMs_append, exRestMs_append]
        have hw1 : setWorkMs
            { setStart := some a, setEnd := some t',
              restStart := none, restEnd := none } = t' - a := rfl
        have hw2 : setRestMs
            { setStart := some a, setEnd := some t',
              restStart := none, restEnd := none } = 0 := rfl
        rw [hw1, hw2]
        omega
      | IN_REST =>
        obtain ⟨r, hr, hrt, hsum, l, last, hsets, hlrs, hlre⟩ := h5 s hs he0 hph
        have hne : ¬((currentEx w).sets = []) := by
          rw [hsets]
          simp
        have hE : updateLast (fun s => { s with restEnd := some (s.restEnd.getD t') })
            (currentEx w).sets = l ++ [{ last with restEnd := some t' }] := by
          rw [hsets, updateLast_append, hlre]
          rfl
        have hwork :
            exWorkMs
              { currentEx w with
                  sets := updateLast (fun s => { s with restEnd := some (s.restEnd.getD t') })
                    (currentEx w).sets }
              = exWorkMs (currentEx w) := by
          unfold exWorkMs
          rw [hE]
          conv_rhs => rw [hsets]
          simp [setWorkMs_restEnd]
        have hrest :
            exRestMs
              { currentEx w with
                  sets := updateLast (fun s => { s with restEnd := some (s.restEnd.getD t') })
                    (currentEx w).sets }
              = exRestMs (currentEx w) + (t' - r) := by
          unfold exRestMs
          rw [hE]
          conv_rhs => rw [hsets]
          simp [setRestMs_close last r t' hlrs, setRestMs_of_restEnd_none last hlre]
        unfold forceCloseNext
        rw [hph]
        simp only [reduceCtorEq, reduceIte]
        rw [if_neg hne, sumClosed_setCurrentEx hidx, hwork, hrest]
        omega
    unfold TimeInv
    refine ⟨fun hc => ?_, fun s2 e hs2 he2 => ?_, fun s2 hs2 he2 hp2 => ?_,
      fun s2 hs2 he2 hp2 => ?_, fun s2 hs2 he2 hp2 => ?_⟩
    · have hc' : (forceCloseNext t' w).startTime = none := hc
      rw [forceCloseNext_startTime, hs] at hc'
      simp at hc'
    · have he2' : (forceCloseNext t' w).endTime = some e := he2
      rw [forceCloseNext_endTime, he0] at he2'
      simp at he2'
    · have hs2' : (forceCloseNext t' w).startTime = some s2 := hs2
      rw [forceCloseNext_startTime, hs] at hs2'
      have hs2e : s2 = s := (Option.some.inj hs2').symm
      rw [sumClosed_mk, mapSum_append_one, mapSum_append_one, exWorkMs_nil, exRestMs_nil]
      omega
    · have hp2' : Phase.READY = Phase.IN_SET := hp2
      simp at hp2'
    · have hp2' : Phase.READY = Phase.IN_REST := hp2
      simp at hp2'

theorem timeInv_finishWorkout {t t' : Int} {w : Workout} (h0 : Inv0 w)
    (h : TimeInv t w) (hle : t ≤ t') : TimeInv t' (finishWorkout t' w) := by
  have hmono := timeInv_mono h hle
  have hidx : w.currentExerciseIndex < w.exercises.length := by
    have hiv := h0.1
    unfold IndexInv at hiv
    omega
  unfold TimeInv at h
  obtain ⟨h1, h2, h3, h4, h5⟩ := h
  unfold finishWorkout
  split
  · exact hmono
  · next hg =>
    push_neg at hg
    obtain ⟨hs0, he0⟩ := hg
    obtain ⟨s, hs⟩ := Option.ne_none_iff_exists'.mp hs0
    have hFCsum : ((forceCloseFinish t' w).exercises.map exWorkMs).sum
        + ((forceCloseFinish t' w).exercises.map exRestMs).sum ≤ t' - s := by
      cases hph : w.phase with
      | READY =>
        have hr := h3 s hs he0 hph
        unfold forceCloseFinish
        rw [hph]
        simp only [reduceCtorEq, reduceIte]
        unfold sumClosed at hr
        omega
      | IN_SET =>
        obtain ⟨a, ha, hat, hsum⟩ := h4 s hs he0 hph
        unfold forceCloseFinish
        rw [hph, ha]
        simp only [reduceIte, Option.getD_some]
        rw [sumClosed_setCurrentEx hidx, exWorkMs_append, exRestMs_append]
        have hw1 : setWorkMs
            { setStart := some a, setEnd := some t',
              restStart := some t', restEnd := some t' } = t' - a := rfl
        have hw2 : setRestMs
            { setStart := some a, setEnd := some t',
              restStart := some t', restEnd := some t' } = t' - t' := rfl
        rw [hw1, hw2]
        omega
      | IN_REST =>
        obtain ⟨r, hr, hrt, hsum, l, last, hsets, hlrs, hlre⟩ := h5 s hs he0 hph
        have hE : updateLast (fun s => { s with restEnd := some t' }) (currentEx w).sets
            = l ++ [{ last with restEnd := some t' }] := by
          rw [hsets, updateLast_append]
        have hwork :
            exWorkMs
              { currentEx w with
                  sets := updateLast (fun s => { s with restEnd := some t' }) (currentEx w).sets }
              = exWorkMs (currentEx w) := by
          unfold exWorkMs
          rw [hE]
          conv_rhs => rw [hsets]
          simp [setWorkMs_restEnd]
        have hrest :
            exRestMs
              { currentEx w with
                  sets := updateLast (fun s => { s with restEnd := some t' }) (currentEx w).sets }
              = exRestMs (currentEx w) + (t' - r) := by
          unfold exRestMs
          rw [hE]
          conv_rhs => rw [hsets]
          simp [setRestMs_close last r t' hlrs, setRestMs_of_restEnd_none last hlre]
        unfold forceCloseFinish
        rw [hph]
        simp only [reduceCtorEq, reduceIte]
        split
        · next last2 heq =>
          rw [hsets, List.getLast?_concat] at heq
          have hl2 : last = last2 := Option.some.inj heq
          subst hl2
          rw [if_pos ⟨by rw [hlrs]; simp, hlre⟩]
          rw [sumClosed_setCurrentEx hidx, hwork, hrest]
          omega
        · next heq =>
          rw [hsets, List.getLast?_concat] at heq
          simp at heq
    unfold TimeInv
    refine ⟨fun hc => ?_, fun s2 e hs2 he2 => ?_, fun s2 hs2 he2 hp2 => ?_,
      fun s2 hs2 he2 hp2 => ?_, fun s2 hs2 he2 hp2 => ?_⟩
    · have hc' : (forceCloseFinish t' w).startTime = none := hc
      rw [forceCloseFinish_startTime, hs] at hc'
      simp at hc'
    · have hs2' : (forceCloseFinish t' w).startTime = some s2 := hs2
      rw [forceCloseFinish_startTime, hs] at hs2'
      have hs2e : s2 = s := (Option.some.inj hs2').symm
      have he2' : some t' = some e := he2
      have he2e : e = t' := (Option.some.inj he2').symm
      rw [sumClosed_mk]
      omega
    · have he2' : (some t' : Option Int) = none := he2
      simp at he2'
    · have he2' : (some t' : Option Int) = none := he2
      simp at he2'
    · have he2' : (some t' : Option Int) = none := he2
      simp at he2'

theorem timeInv_applyOp (o : Op) {t t' : Int} {w : Workout} (h0 : Inv0 w)
    (h : TimeInv t w) (hle : t ≤ t') : TimeInv t' (applyOp o t' w) := by
  cases o with
  | opStart => exact timeInv_startWorkout h hle
  | opStartSet => exact timeInv_startSet h hle
  | opEndSetStartRest => exact timeInv_endSetStartRest h0 h hle
  | opEndRestStartSet => exact timeInv_endRestStartSet h0 h hle
  | opNextExercise => exact timeInv_nextExercise h0 h hle
  | opFinish => exact timeInv_finishWorkout h0 h hle
  | opReset => exact timeInv_newWorkout t'

theorem monoReach_inv {t : Int} {w : Workout} (h : MonoReach t w) :
    Inv0 w ∧ TimeInv t w := by
  induction h with
  | init t => exact ⟨inv0_newWorkout, timeInv_newWorkout t⟩
  | step o hm hle ih =>
    exact ⟨inv0_applyOp _ _ _ ih.1, timeInv_applyOp _ ih.1 ih.2 hle⟩

/-- Spec precondition of `start()`: the session has not started. -/
def preStart (w : Workout) : Prop :=
  w.startTime = none

/-- Spec precondition of `startSet()`: started, not ended, phase READY. -/
def preStartSet (w : Workout) : Prop :=
  w.startTime ≠ none ∧ w.endTime = none ∧ w.phase = Phase.READY

/-- Spec precondition of `endSetStartRest()`: the lifting interval is open. -/
def preEndSetStartRest (w : Workout) : Prop :=
  w.phase = Phase.IN_SET

/-- Spec precondition of `endRestStartSet()`: resting, with a logged set. -/
def preEndRestStartSet (w : Workout) : Prop :=
  w.phase = Phase.IN_REST ∧ (currentEx w).sets ≠ []

/-- Spec precondition of `nextExercise()`: started, not ended. -/
def preNextExercise (w : Workout) : Prop :=
  w.startTime ≠ none ∧ w.endTime = none

/-- Spec precondition of `finish()`: started, not ended. -/
def preFinish (w : Workout) : Prop :=
  w.startTime ≠ none ∧ w.endTime = none

/-- Spec precondition of `reset()`: none, the operation always applies. -/
def preReset (_w : Workout) : Prop :=
  True

/-- Claim C1: in every reachable state, `phase == READY` holds iff
`active.setStart` and `active.restStart` are both absent, and while the
phase is `IN_SET` or `IN_REST` exactly one of the two is present. -/
theorem claim_C1 (w : Workout) (h : Reach w) :
    (w.phase = Phase.READY ↔ w.active.setStart = none ∧ w.active.restStart = none) ∧
    (w.phase = Phase.IN_SET ∨ w.phase = Phase.IN_REST →
      (w.active.setStart ≠ none ∧ w.active.restStart = none) ∨
      (w.active.setStart = none ∧ w.active.restStart ≠ none)) := by
  have hpa := (reach_inv0 h).2
  unfold PhaseActiveInv at hpa
  obtain ⟨hready, hinset, hinrest⟩ := hpa
  constructor
  · constructor
    · exact hready
    · rintro ⟨ha, hb⟩
      cases hph : w.phase with
      | READY => rfl
      | IN_SET =>
        obtain ⟨⟨a, haa⟩, _⟩ := hinset hph
        rw [ha] at haa
        simp at haa
      | IN_REST =>
        obtain ⟨_, ⟨r, hrr⟩⟩ := hinrest hph
        rw [hb] at hrr
        simp at hrr
  · intro hor
    cases hor with
    | inl hph =>
      obtain ⟨⟨a, haa⟩, hb⟩ := hinset hph
      exact Or.inl ⟨by rw [haa]; simp, hb⟩
    | inr hph =>
      obtain ⟨ha, ⟨r, hrr⟩⟩ := hinrest hph
      exact Or.inr ⟨ha, by rw [hrr]; simp⟩

/-- Witness for C1 at the reachable state `startSet 5 (startWorkout 3 newWorkout)`. -/
theorem claim_C1_witness :
    ((startSet 5 (startWorkout 3 newWorkout)).phase = Phase.READY ↔
      (startSet 5 (startWorkout 3 newWorkout)).active.setStart = none ∧
      (startSet 5 (startWorkout 3 newWorkout)).active.restStart = none) ∧
    ((startSet 5 (startWorkout 3 newWorkout)).phase = Phase.IN_SET ∨
      (startSet 5 (startWorkout 3 newWorkout)).phase = Phase.IN_REST →
      ((startSet 5 (startWorkout 3 newWorkout)).active.setStart ≠ none ∧
        (startSet 5 (startWorkout 3 newWorkout)).active.restStart = none) ∨
      ((startSet 5 (startWorkout 3 newWorkout)).active.setStart = none ∧
        (startSet 5 (startWorkout 3 newWorkout)).active.restStart ≠ none)) :=
  claim_C1 (startSet 5 (startWorkout 3 newWorkout))
    (Reach.step Op.opStartSet 5 (Reach.step Op.opStart 3 Reach.init))

/-- Claim C2: under a monotonically non-decreasing time source, once the
session is finished (`endTime` present), `calcTotals` satisfies
`workMs + restMs ≤ gymMs`. -/
theorem claim_C2 {t : Int} {w : Workout} (h : MonoReach t w) (e : Int)
    (he : w.endTime = some e) (tNow : Int) :
    (calcTotals tNow w).workMs + (calcTotals tNow w).restMs
      ≤ (calcTotals tNow w).gymMs := by
  obtain ⟨h0, hT⟩ := monoReach_inv h
  unfold TimeInv at hT
  obtain ⟨h1, h2, h3, h4, h5⟩ := hT
  cases hst : w.startTime with
  | none =>
    have hw := h1 hst
    rw [hw] at he
    simp [newWorkout] at he
  | some s =>
    have hsum := h2 s e hst he
    unfold sumClosed at hsum
    have hg : (calcTotals tNow w).gymMs = e - s := by
      unfold calcTotals
      simp [hst, he]
    show (w.exercises.map exWorkMs).sum + (w.exercises.map exRestMs).sum
      ≤ (calcTotals tNow w).gymMs
    rw [hg]
    exact hsum

/-- Witness for C2: start at 0, finish at 5, read totals at clock 77. -/
theorem claim_C2_witness :
    (calcTotals 77 (finishWorkout 5 (startWorkout 0 newWorkout))).workMs
      + (calcTotals 77 (finishWorkout 5 (startWorkout 0 newWorkout))).restMs
      ≤ (calcTotals 77 (finishWorkout 5 (startWorkout 0 newWorkout))).gymMs :=
  claim_C2
    (MonoReach.step Op.opFinish
      (MonoReach.step Op.opStart (MonoReach.init 0) (by decide)) (by decide))
    5 (by decide) 77

/-- Claim C3: `finish()` in phase `IN_SET` (started, not ended) appends one
SetRecord closing the lift at `now` with a zero-length rest
`restStart = restEnd = now`. -/
theorem claim_C3 (w : Workout) (t : Int)
    (hidx : w.currentExerciseIndex < w.exercises.length)
    (hs : w.startTime ≠ none) (he : w.endTime = none) (hp : w.phase = Phase.IN_SET) :
    (currentEx (finishWorkout t w)).sets
      = (currentEx w).sets ++
        [{ setStart := some (w.active.setStart.getD t), setEnd := some t,
           restStart := some t, restEnd := some t }] := by
  unfold finishWorkout
  rw [if_neg (by simp [hs, he])]
  unfold forceCloseFinish
  rw [hp]
  simp only [reduceIte]
  show ((setCurrentEx w _).getD w.currentExerciseIndex defaultExercise).sets = _
  unfold setCurrentEx
  rw [getD_set_self _ _ _ _ hidx]

/-- Witness for C3: the trace start at 2, startSet at 3, finish at 7 ends
with exactly one SetRecord, whose rest is the zero-length `[7, 7]`. -/
theorem claim_C3_witness :
    (currentEx (finishWorkout 7 (startSet 3 (startWorkout 2 newWorkout)))).sets
      = [{ setStart := some 3, setEnd := some 7,
           restStart := some 7, restEnd := some 7 }] := by
  rw [claim_C3 (startSet 3 (startWorkout 2 newWorkout)) 7 (by decide) (by decide)
    (by decide) (by decide)]
  decide

/-- Claim C4: after start, startSet, nextExercise (non-decreasing times),
exercise 1 holds exactly one SetRecord with both set endpoints present,
`setEnd - setStart ≥ 0`, and no rest recorded; a fresh empty exercise is
current, with phase READY and `exerciseStartTime` absent. -/
theorem claim_C4 (t0 t1 t2 : Int) (_h01 : t0 ≤ t1) (h12 : t1 ≤ t2) :
    ((nextExercise t2 (startSet t1 (startWorkout t0 newWorkout))).exercises.getD 0
        defaultExercise).sets
      = [{ setStart := some t1, setEnd := some t2, restStart := none, restEnd := none }] ∧
    (0 : Int) ≤ t2 - t1 ∧
    (nextExercise t2 (startSet t1 (startWorkout t0 newWorkout))).exercises.length = 2 ∧
    (nextExercise t2 (startSet t1 (startWorkout t0 newWorkout))).currentExerciseIndex = 1 ∧
    ((nextExercise t2 (startSet t1 (startWorkout t0 newWorkout))).exercises.getD 1
        defaultExercise).sets = [] ∧
    (nextExercise t2 (startSet t1 (startWorkout t0 newWorkout))).phase = Phase.READY ∧
    (nextExercise t2 (startSet t1 (startWorkout t0 newWorkout))).exerciseStartTime = none := by
  refine ⟨rfl, by omega, rfl, rfl, rfl, rfl, rfl⟩

/-- Witness for C4 at times 0, 0, 5. -/
theorem claim_C4_witness :
    ((nextExercise 5 (startSet 0 (startWorkout 0 newWorkout))).exercises.getD 0
        defaultExercise).sets
      = [{ setStart := some 0, setEnd := some 5, restStart := none, restEnd := none }] ∧
    (0 : Int) ≤ 5 - 0 ∧
    (nextExercise 5 (startSet 0 (startWorkout 0 newWorkout))).exercises.length = 2 ∧
    (nextExercise 5 (startSet 0 (startWorkout 0 newWorkout))).currentExerciseIndex = 1 ∧
    ((nextExercise 5 (startSet 0 (startWorkout 0 newWorkout))).exercises.getD 1
        defaultExercise).sets = [] ∧
    (nextExercise 5 (startSet 0 (startWorkout 0 newWorkout))).phase = Phase.READY ∧
    (nextExercise 5 (startSet 0 (startWorkout 0 newWorkout))).exerciseStartTime = none :=
  claim_C4 0 0 5 (by decide) (by decide)

/-- Claim C5: every operation whose spec precondition fails returns the
state unchanged (the embedding is total, so nothing is thrown); in
particular `endRestStartSet` is a no-op when not resting or when the
current exercise has no sets, and `start()` is a no-op once started. -/
theorem claim_C5 (w : Workout) (t : Int) :
    (¬ preStart w → startWorkout t w = w) ∧
    (¬ preStartSet w → startSet t w = w) ∧
    (¬ preEndSetStartRest w → endSetStartRest t w = w) ∧
    (¬ preEndRestStartSet w → endRestStartSet t w = w) ∧
    (¬ preNextExercise w → nextExercise t w = w) ∧
    (¬ preFinish w → finishWorkout t w = w) ∧
    (¬ preReset w → resetAll w = w) := by
  refine ⟨?_, ?_, ?_, ?_, ?_, ?_, ?_⟩
  · intro hn
    unfold preStart at hn
    unfold startWorkout
    rw [if_pos hn]
  · intro hn
    unfold preStartSet at hn
    have hcond : w.startTime = none ∨ w.endTime ≠ none ∨ w.phase ≠ Phase.READY := by
      by_contra hc
      push_neg at hc
      exact hn ⟨hc.1, hc.2.1, hc.2.2⟩
    unfold startSet
    rw [if_pos hcond]
  · intro hn
    unfold preEndSetStartRest at hn
    unfold endSetStartRest
    rw [if_pos (Or.inr (Or.inr hn))]
  · intro hn
    unfold preEndRestStartSet at hn
    unfold endRestStartSet
    by_cases hg : w.startTime = none ∨ w.endTime ≠ none ∨ w.phase ≠ Phase.IN_REST
    · rw [if_pos hg]
    · push_neg at hg
      have hsets : (currentEx w).sets = [] := by
        by_contra hc
        exact hn ⟨hg.2.2, hc⟩
      rw [if_neg (by push_neg; exact hg), if_pos hsets]
  · intro hn
    unfold preNextExercise at hn
    have hcond : w.startTime = none ∨ w.endTime ≠ none := by
      by_contra hc
      push_neg at hc
      exact hn ⟨hc.1, hc.2⟩
    unfold nextExercise
    rw [if_pos hcond]
  · intro hn
    unfold preFinish at hn
    have hcond : w.startTime = none ∨ w.endTime ≠ none := by
      by_contra hc
      push_neg at hc
      exact hn ⟨hc.1, hc.2⟩
    unfold finishWorkout
    rw [if_pos hcond]
  · intro hn
    exact absurd trivial hn

/-- Witness for C5: concrete no-ops, each obtained from the theorem with
its precondition-failure hypothesis discharged by `decide`. -/
theorem claim_C5_witness :
    startWorkout 9 (startWorkout 0 newWorkout) = startWorkout 0 newWorkout ∧
    startSet 9 newWorkout = newWorkout ∧
    endSetStartRest 9 newWorkout = newWorkout ∧
    endRestStartSet 9 newWorkout = newWorkout ∧
    nextExercise 9 newWorkout = newWorkout ∧
    finishWorkout 9 newWorkout = newWorkout :=
  ⟨(claim_C5 (startWorkout 0 newWorkout) 9).1 (by unfold preStart; decide),
    (claim_C5 newWorkout 9).2.1 (by unfold preStartSet; decide),
    (claim_C5 newWorkout 9).2.2.1 (by unfold preEndSetStartRest; decide),
    (claim_C5 newWorkout 9).2.2.2.1 (by unfold preEndRestStartSet; decide),
    (claim_C5 newWorkout 9).2.2.2.2.1 (by unfold preNextExercise; decide),
    (claim_C5 newWorkout 9).2.2.2.2.2.1 (by unfold preFinish; decide)⟩

/-- Claim C6: `finish()` is idempotent — a second call leaves the state of
the first call unchanged (proved for every state, reachable or not). -/
theorem claim_C6 (w : Workout) (t t2 : Int) :
    finishWorkout t2 (finishWorkout t w) = finishWorkout t w := by
  have hnoop : ∀ (v : Workout) (t3 : Int),
      v.startTime = none ∨ v.endTime ≠ none → finishWorkout t3 v = v := by
    intro v t3 hv
    unfold finishWorkout
    rw [if_pos hv]
  by_cases hg : w.startTime = none ∨ w.endTime ≠ none
  · rw [hnoop w t hg, hnoop w t2 hg]
  · push_neg at hg
    obtain ⟨hs0, he0⟩ := hg
    have h1 : (finishWorkout t w).endTime = some t := by
      unfold finishWorkout
      rw [if_neg (by push_neg; exact ⟨hs0, he0⟩)]
    apply hnoop
    right
    rw [h1]
    simp

/-- Claim C7: the basic set/rest cycle scenario produces exactly the two
expected SetRecords and totals work 20000 / rest 30000 / gym 50000. -/
theorem claim_C7 :
    (finishWorkout 50000 (endRestStartSet 40000 (endSetStartRest 10000
        (startSet 0 (startWorkout 0 newWorkout))))).exercises
      = [{ id := "ex-1", name := "Exercise 1",
           sets := [{ setStart := some 0, setEnd := some 10000,
                      restStart := some 10000, restEnd := some 40000 },
                    { setStart := some 40000, setEnd := some 50000,
                      restStart := some 50000, restEnd := some 50000 }] }] ∧
    calcTotals 123456 (finishWorkout 50000 (endRestStartSet 40000 (endSetStartRest 10000
        (startSet 0 (startWorkout 0 newWorkout)))))
      = { workMs := 20000, restMs := 30000, gymMs := 50000 } := by
  decide

/-- Claim C8: the duration formatter's concrete values, and in general a
nonnegative duration renders unbounded minutes `n / 60000` with
zero-padded remaining seconds. -/
theorem claim_C8 :
    (msToClock 0 = "0:00" ∧ msToClock 59000 = "0:59" ∧
      msToClock 60000 = "1:00" ∧ msToClock 3661000 = "61:01") ∧
    ∀ n : Int, 0 ≤ n →
      msToClock n = toString (n / 60000) ++ ":" ++ padTwo (n % 60000 / 1000) := by
  constructor
  · exact ⟨rfl, rfl, rfl, rfl⟩
  · intro n hn
    unfold msToClock
    rw [Int.fdiv_eq_ediv _ (by omega)]
    rw [max_eq_right (by positivity)]
    have h1 : n / 1000 / 60 = n / 60000 := by omega
    have h2 : n / 1000 % 60 = n % 60000 / 1000 := by omega
    rw [h1, h2]

/-- Witness for C8's general clause at 125000 ms (2 minutes 5 seconds). -/
theorem claim_C8_witness :
    msToClock 125000
      = toString ((125000 : Int) / 60000) ++ ":" ++ padTwo ((125000 : Int) % 60000 / 1000) :=
  claim_C8.2 125000 (by decide)

/-- Claim C9: in every reachable state the active exercise index equals
`exercises.length - 1`, hence always points at an existing exercise. -/
theorem claim_C9 (w : Workout) (h : Reach w) :
    w.currentExerciseIndex = w.exercises.length - 1 ∧
    w.currentExerciseIndex < w.exercises.length := by
  have hi := (reach_inv0 h).1
  unfold IndexInv at hi
  omega

/-- Witness for C9 after advancing to a second exercise. -/
theorem claim_C9_witness :
    (nextExercise 1 (startWorkout 0 newWorkout)).currentExerciseIndex
      = (nextExercise 1 (startWorkout 0 newWorkout)).exercises.length - 1 ∧
    (nextExercise 1 (startWorkout 0 newWorkout)).currentExerciseIndex
      < (nextExercise 1 (startWorkout 0 newWorkout)).exercises.length :=
  claim_C9 (nextExercise 1 (startWorkout 0 newWorkout))
    (Reach.step Op.opNextExercise 1 (Reach.step Op.opStart 0 Reach.init))

/-- Claim C10: negative durations are clamped — `msToClock` returns
exactly "0:00" for every negative input. -/
theorem claim_C10 (ms : Int) (h : ms < 0) : msToClock ms = "0:00" := by
  unfold msToClock
  rw [Int.fdiv_eq_ediv _ (by omega)]
  rw [max_eq_left (by omega)]
  rfl

/-- Witness for C10 at -250 ms. -/
theorem claim_C10_witness : msToClock (-250) = "0:00" :=
  claim_C10 (-250) (by decide)

end WorkoutTimer
